import Mathlib

/-!
Verification development for the MarketScout repository.

The repository snapshot contains the backend API documentation
(`src/unnamed/part_000`, `src/unnamed/part_001`,
`COMPREHENSIVE_DOCUMENTATION.md`) and the frontend dashboard with its
auth context (`FrontEnd/src/app/dashboard/page.tsx`).  The backend
Python implementation (`main.py`, `business_logic.py`, `crud.py`) is not
part of the snapshot, so the scoring engine, trending selector, alert
evaluator and product CRUD are modelled from the specification; the
frontend auth context is embedded directly from the source.

Floats are modelled as rationals; timestamps as naturals; the
pseudo-random jitter of the scoring engine and the clock are explicit
inputs.
-/

namespace MarketScout

/-- Modelled from the spec: a row of the Products table
(id, name, description, created_at).  The backend `models.py` is absent
from the snapshot; fields follow the documented schema. -/
structure Product where
  id : Nat
  name : String
  description : String
  created_at : Nat
deriving Repr, DecidableEq

/-- Modelled from the spec: a row of the Ads table
(id, product_id, platform, ad_content, created_at). -/
structure Ad where
  id : Nat
  product_id : Nat
  platform : String
  ad_content : String
  created_at : Nat
deriving Repr, DecidableEq

/-- Modelled from the spec: a row of the Trends table
(id, product_id, score, date); the score is a float in [0,100],
modelled as a rational. -/
structure Trend where
  id : Nat
  product_id : Nat
  score : ℚ
  date : Nat
deriving Repr, DecidableEq

/-- Modelled from the spec: a row of the Watchlists table
(id, user_id, product_id, created_at). -/
structure WatchItem where
  id : Nat
  user_id : Nat
  product_id : Nat
  created_at : Nat
deriving Repr, DecidableEq

/-- Modelled from the spec: the persistence-layer state the scoring and
alert claims range over.  Rows are kept in insertion order, matching the
append-only time series of the spec. -/
structure DB where
  products : List Product
  ads : List Ad
  trends : List Trend
  watchlists : List WatchItem
deriving Repr, DecidableEq

/-- Look up a product by primary key. -/
def findProduct (db : DB) (pid : Nat) : Option Product :=
  db.products.find? (fun p => p.id == pid)

/-- The ads associated with a product. -/
def adsFor (db : DB) (pid : Nat) : List Ad :=
  db.ads.filter (fun a => a.product_id == pid)

/-- The trend records of a product, in insertion (chronological) order. -/
def trendsFor (db : DB) (pid : Nat) : List Trend :=
  db.trends.filter (fun t => t.product_id == pid)

/-- Number of distinct platforms among a list of ads. -/
def distinctPlatforms (ads : List Ad) : Nat :=
  ((ads.map (fun a => a.platform)).dedup).length

/-- Modelled from the spec: the fixed base value of the trend score;
also the floor returned for a product with zero ads. -/
def baseScore : ℚ := 30

/-- Modelled from the spec: the bonus for platform diversity, monotone in
the number of distinct platforms. -/
def diversityBonus (platforms : Nat) : ℚ := 10 * (platforms : ℚ)

/-- Modelled from the spec: the bonus for ad volume. -/
def volumeBonus (adCount : Nat) : ℚ := 5 * (adCount : ℚ)

/-- Modelled from the spec: the range bound of the pseudo-random
engagement jitter term. -/
def jitterMax : ℚ := 20

/-- Clamp a value to the interval [0,100]. -/
def clampScore (x : ℚ) : ℚ := max 0 (min 100 x)

/-- Modelled from the spec: the raw trend score before clamping: a base
value, a bonus for platform diversity, a bonus for ad volume and a
pseudo-random engagement jitter term. -/
def rawScore (platforms adCount : Nat) (jitter : ℚ) : ℚ :=
  baseScore + diversityBonus platforms + volumeBonus adCount + jitter

/-- Modelled from the spec: the trend score of a product with the given
number of distinct platforms and ads, clamped to [0,100]. -/
def trendScoreValue (platforms adCount : Nat) (jitter : ℚ) : ℚ :=
  clampScore (rawScore platforms adCount jitter)

/-- Next autoincrement id over a list of existing ids. -/
def nextId (ids : List Nat) : Nat := ids.foldr (fun i m => max i m) 0 + 1

/-- Next autoincrement id of the Trends table. -/
def nextTrendId (db : DB) : Nat := nextId (db.trends.map (fun t => t.id))

/-- Next autoincrement id of the Products table. -/
def nextProductId (db : DB) : Nat := nextId (db.products.map (fun p => p.id))

/-- Failure conditions of the modelled endpoints. -/
inductive ApiError where
  | NotFound
deriving Repr, DecidableEq

/-- Modelled from the spec: `calculate_trend_score(product_id)` of the
scoring engine (`business_logic.py` is absent from the snapshot): an
unknown product id fails with NotFound; otherwise the clamped score is
computed from the ads of the product and one new Trend record carrying
the score and the current timestamp is appended. -/
def calculate_trend_score (db : DB) (pid : Nat) (jitter : ℚ) (now : Nat) :
    Except ApiError (ℚ × DB) :=
  match findProduct db pid with
  | none => .error .NotFound
  | some _ =>
      let ads := adsFor db pid
      let score := trendScoreValue (distinctPlatforms ads) ads.length jitter
      let t : Trend := ⟨nextTrendId db, pid, score, now⟩
      .ok (score, { db with trends := db.trends ++ [t] })

/-- Modelled from the spec: the most recent Trend record of a product;
a later date wins, and among equal dates the later row of the
append-only time series wins. -/
def latestTrend (db : DB) (pid : Nat) : Option Trend :=
  (trendsFor db pid).foldl
    (fun acc t =>
      match acc with
      | none => some t
      | some u => if u.date ≤ t.date then some t else some u)
    none

/-- Modelled from the spec: the current score of a product: the score of
its most recent Trend record, or a freshly computed score if the product
has no Trend record. -/
def currentScore (db : DB) (pid : Nat) (jitter : ℚ) : ℚ :=
  match latestTrend db pid with
  | some t => t.score
  | none =>
      let ads := adsFor db pid
      trendScoreValue (distinctPlatforms ads) ads.length jitter

/-- Comparison used by the trending selector: non-increasing current
score. -/
def scoreGE (a b : Product × ℚ) : Prop := b.2 ≤ a.2

instance : DecidableRel scoreGE :=
  fun a b => inferInstanceAs (Decidable (b.2 ≤ a.2))

instance : IsTotal (Product × ℚ) scoreGE := ⟨fun a b => le_total b.2 a.2⟩

instance : IsTrans (Product × ℚ) scoreGE :=
  ⟨fun _ _ _ hab hbc => le_trans hbc hab⟩

/-- Modelled from the spec: `trending(limit)`: pair every product with
its current score, sort descending by score, truncate to `limit`. -/
def trending (db : DB) (limit : Nat) (jitter : ℚ) : List (Product × ℚ) :=
  (List.insertionSort scoreGE
    (db.products.map (fun p => (p, currentScore db p.id jitter)))).take limit

/-- Modelled from the spec: the fixed threshold of the score-increase
alert. -/
def alertThreshold : ℚ := 10

/-- Modelled from the spec: the alert messages for one watchlisted
product: a score-increase message when the two most recent Trend scores
increased by more than the threshold, and a new-viral-ad message for
each ad created after the latest Trend record. -/
def productAlerts (db : DB) (pid : Nat) : List String :=
  let name :=
    match findProduct db pid with
    | some p => p.name
    | none => ""
  let ts := (trendsFor db pid).reverse
  let scoreMsg : List String :=
    match ts with
    | t1 :: t0 :: _ =>
        if alertThreshold < t1.score - t0.score then
          ["🚀 " ++ name ++ " trend score increased by " ++
            toString (t1.score - t0.score) ++ " points!"]
        else []
    | _ => []
  let lastDate :=
    match ts with
    | t :: _ => t.date
    | [] => 0
  let adMsgs : List String :=
    ((adsFor db pid).filter (fun a => lastDate < a.created_at)).map
      (fun a => "🔥 New viral ad detected for " ++ name ++ " on " ++
        a.platform ++ "!")
  scoreMsg ++ adMsgs

/-- Modelled from the spec: `check_alerts(user_id)`: for each product on
the watchlist of the user, emit its alert messages. -/
def check_alerts (db : DB) (uid : Nat) : List String :=
  ((db.watchlists.filter (fun w => w.user_id == uid)).map
    (fun w => productAlerts db w.product_id)).flatten

/-- Modelled from the spec: `POST /products`: create a Product with a
fresh id and the supplied name and description, appending it to the
table. -/
def create_product (db : DB) (nm ds : String) (now : Nat) : Product × DB :=
  let p : Product := ⟨nextProductId db, nm, ds, now⟩
  (p, { db with products := db.products ++ [p] })

/-- Modelled from the spec: `GET /products/{product_id}`. -/
def get_product (db : DB) (pid : Nat) : Option Product :=
  findProduct db pid

namespace Frontend

/-- The frontend `User` object of `lib/api` as used by the auth context:
id, username, email, created_at (an ISO string). -/
structure FUser where
  id : Nat
  username : String
  email : String
  created_at : String
deriving Repr, DecidableEq

/-- The `AuthProvider` state: the context `user`, the `isLoading` flag,
the token in localStorage and the token held by the api client
(`auth-context.tsx`, embedded from the source). -/
structure AuthState where
  user : Option FUser
  isLoading : Bool
  storedToken : Option String
  clientToken : Option String
deriving Repr, DecidableEq

/-- `isAuthenticated` as computed in the provider value: `!!user`. -/
def isAuthenticated (s : AuthState) : Bool := s.user.isSome

/-- The initial provider state: `useState<User | null>(null)` and
`useState(true)`, with the given localStorage content. -/
def initAuthState (stored : Option String) : AuthState :=
  ⟨none, true, stored, none⟩

/-- The mount effect: read `access_token` from localStorage, hand it to
the api client when present, then clear `isLoading`; `user` is never
set. -/
def mountEffect (s : AuthState) : AuthState :=
  match s.storedToken with
  | some t => { s with clientToken := some t, isLoading := false }
  | none => { s with isLoading := false }

/-- The mock user built by `login` after a successful `apiClient.login`:
id 1, the given username, email `username + "@example.com"`. -/
def mkMockUser (username nowIso : String) : FUser :=
  ⟨1, username, username ++ "@example.com", nowIso⟩

/-- `login`: on api success set `user` to the mock user; on api failure
rethrow, leaving the state unchanged.  The outcome of the api call is an
explicit input. -/
def login (s : AuthState) (username _password : String) (apiOk : Bool)
    (nowIso : String) : Except Unit AuthState :=
  if apiOk then .ok { s with user := some (mkMockUser username nowIso) }
  else .error ()

/-- `signup`: call `apiClient.signup(username, email, password)` and, on
success, `login(username, password)`; on any api failure rethrow with
the state unchanged.  The email is only forwarded to the api and never
enters the context user. -/
def signup (s : AuthState) (username email password : String)
    (signupOk loginOk : Bool) (nowIso : String) : Except Unit AuthState :=
  if signupOk then login s username password loginOk nowIso
  else .error ()

/-- `logout`: `apiClient.logout()` (modelled from the docs as clearing
the tokens, `lib/api.ts` being absent from the snapshot) followed by
`setUser(null)`. -/
def logout (s : AuthState) : AuthState :=
  { s with user := none, clientToken := none, storedToken := none }

end Frontend

/-! Helper lemmas. -/

theorem clampScore_nonneg (x : ℚ) : 0 ≤ clampScore x := le_max_left 0 _

theorem clampScore_le_100 (x : ℚ) : clampScore x ≤ 100 :=
  max_le (by norm_num) (min_le_left 100 x)

theorem clampScore_eq_self (x : ℚ) (h0 : 0 ≤ x) (h1 : x ≤ 100) :
    clampScore x = x := by
  unfold clampScore
  rw [min_eq_right h1, max_eq_right h0]

/-- A sample product used by the witnesses. -/
def sampleProduct : Product := ⟨1, "Wireless Earbuds", "earbuds", 0⟩

/-- A sample one-product state used by the witnesses. -/
def sampleDB : DB := ⟨[sampleProduct], [], [], []⟩

/-! Claims. -/

/-- Claim C1: whenever `calculate_trend_score` succeeds, the returned
score lies in [0,100]; and provided every already-stored Trend score
lies in [0,100], every Trend score of the resulting state does too, so
every score it computes and stores is in [0,100]. -/
theorem calculate_trend_score_range (db : DB) (pid : Nat) (jitter : ℚ)
    (now : Nat) (s : ℚ) (db2 : DB)
    (h : calculate_trend_score db pid jitter now = .ok (s, db2))
    (hdb : ∀ t ∈ db.trends, 0 ≤ t.score ∧ t.score ≤ 100) :
    (0 ≤ s ∧ s ≤ 100) ∧ ∀ t ∈ db2.trends, 0 ≤ t.score ∧ t.score ≤ 100 := by
  unfold calculate_trend_score at h
  cases hf : findProduct db pid with
  | none => rw [hf] at h; exact absurd h (by simp)
  | some p =>
      rw [hf] at h
      simp only [Except.ok.injEq, Prod.mk.injEq] at h
      obtain ⟨hs, hdb2⟩ := h
      subst hs
      subst hdb2
      refine ⟨⟨clampScore_nonneg _, clampScore_le_100 _⟩, ?_⟩
      intro t ht
      simp only [List.mem_append, List.mem_singleton] at ht
      rcases ht with ht | ht
      · exact hdb t ht
      · subst ht; exact ⟨clampScore_nonneg _, clampScore_le_100 _⟩

/-- Witness for C1 at a concrete state. -/
theorem calculate_trend_score_range_witness :
    (0 ≤ (35 : ℚ) ∧ (35 : ℚ) ≤ 100) ∧
      ∀ t ∈ (DB.mk [sampleProduct] [] [⟨1, 1, 35, 7⟩] []).trends,
        0 ≤ t.score ∧ t.score ≤ 100 :=
  calculate_trend_score_range sampleDB 1 5 7 35
    ⟨[sampleProduct], [], [⟨1, 1, 35, 7⟩], []⟩
    (by
      simp only [calculate_trend_score, findProduct, sampleDB, sampleProduct,
        adsFor, distinctPlatforms, trendScoreValue, clampScore, rawScore,
        baseScore, diversityBonus, volumeBonus, nextTrendId, nextId,
        List.find?, List.filter, List.map, List.dedup, List.foldr]
      norm_num)
    (by simp [sampleDB])

/-- Claim C2: `trending(limit)` returns at most `limit` items, sorted in
non-increasing order of current score, and every returned item pairs a
product of the state with its current score, that is, the score of its
most recent Trend record or a freshly computed score if it has none. -/
theorem trending_spec (db : DB) (limit : Nat) (jitter : ℚ) :
    (trending db limit jitter).length ≤ limit ∧
    List.Sorted scoreGE (trending db limit jitter) ∧
    ∀ x ∈ trending db limit jitter,
      x.1 ∈ db.products ∧ x.2 = currentScore db x.1.id jitter := by
  refine ⟨?_, ?_, ?_⟩
  · rw [trending, List.length_take]; exact min_le_left _ _
  · exact (List.sorted_insertionSort scoreGE _).sublist
      (List.take_sublist _ _)
  · intro x hx
    have hx2 : x ∈ List.insertionSort scoreGE
        (db.products.map (fun p => (p, currentScore db p.id jitter))) :=
      List.mem_of_mem_take hx
    have hx3 : x ∈ db.products.map (fun p => (p, currentScore db p.id jitter)) :=
      (List.perm_insertionSort scoreGE _).mem_iff.mp hx2
    obtain ⟨p, hp, hpx⟩ := List.mem_map.mp hx3
    subst hpx
    exact ⟨hp, rfl⟩

/-- Claim C3: for an existing product with zero ads and a nonnegative
jitter, `calculate_trend_score` succeeds (raises no error) and returns a
score between the fixed floor `baseScore` and 100. -/
theorem calculate_trend_score_zero_ads (db : DB) (pid : Nat) (jitter : ℚ)
    (now : Nat) (p : Product) (hp : findProduct db pid = some p)
    (hads : adsFor db pid = []) (hj : 0 ≤ jitter) :
    ∃ s db2, calculate_trend_score db pid jitter now = .ok (s, db2) ∧
      baseScore ≤ s ∧ s ≤ 100 := by
  refine ⟨trendScoreValue (distinctPlatforms (adsFor db pid))
      (adsFor db pid).length jitter,
    { db with trends := db.trends ++
        [⟨nextTrendId db, pid,
          trendScoreValue (distinctPlatforms (adsFor db pid))
            (adsFor db pid).length jitter, now⟩] },
    ?_, ?_, clampScore_le_100 _⟩
  · unfold calculate_trend_score
    rw [hp]
  · rw [hads]
    show baseScore ≤ trendScoreValue 0 0 jitter
    unfold trendScoreValue rawScore clampScore baseScore diversityBonus
      volumeBonus
    push_cast
    rcases le_total (30 + 10 * 0 + 5 * 0 + jitter : ℚ) 100 with h | h
    · rw [min_eq_right h]
      have : (30 : ℚ) ≤ 30 + 10 * 0 + 5 * 0 + jitter := by linarith
      exact le_trans this (le_max_right _ _)
    · rw [min_eq_left h]
      have : (30 : ℚ) ≤ 100 := by norm_num
      exact le_trans this (le_max_right _ _)

/-- Witness for C3 at a concrete state. -/
theorem calculate_trend_score_zero_ads_witness :
    ∃ s db2, calculate_trend_score sampleDB 1 (5 : ℚ) 7 = .ok (s, db2) ∧
      baseScore ≤ s ∧ s ≤ 100 :=
  calculate_trend_score_zero_ads sampleDB 1 5 7 sampleProduct
    (by decide) (by decide) (by norm_num)

/-- Claim C4: `calculate_trend_score` fails, and then necessarily with
NotFound, exactly when no product of the state carries the requested id,
and succeeds otherwise. -/
theorem calculate_trend_score_notFound (db : DB) (pid : Nat) (jitter : ℚ)
    (now : Nat) :
    (calculate_trend_score db pid jitter now = .error .NotFound ↔
      ∀ p ∈ db.products, p.id ≠ pid) ∧
    ((∃ p ∈ db.products, p.id = pid) →
      ∃ s db2, calculate_trend_score db pid jitter now = .ok (s, db2)) := by
  constructor
  · constructor
    · intro h p hp hid
      unfold calculate_trend_score at h
      cases hf : findProduct db pid with
      | none =>
          rw [findProduct, List.find?_eq_none] at hf
          exact hf p hp (by simp [hid])
      | some q => rw [hf] at h; exact absurd h (by simp)
    · intro h
      have hf : findProduct db pid = none := by
        rw [findProduct, List.find?_eq_none]
        intro p hp
        simp only [beq_iff_eq]
        exact h p hp
      unfold calculate_trend_score
      rw [hf]
  · rintro ⟨p, hp, hid⟩
    cases hf : findProduct db pid with
    | none =>
        rw [findProduct, List.find?_eq_none] at hf
        exact absurd (by simp [hid] : (p.id == pid) = true) (hf p hp)
    | some q =>
        refine ⟨trendScoreValue (distinctPlatforms (adsFor db pid))
            (adsFor db pid).length jitter,
          { db with trends := db.trends ++
              [⟨nextTrendId db, pid,
                trendScoreValue (distinctPlatforms (adsFor db pid))
                  (adsFor db pid).length jitter, now⟩] }, ?_⟩
        unfold calculate_trend_score
        rw [hf]

/-- Witness for C4: an unknown id fails with NotFound and a known id
succeeds, at a concrete state. -/
theorem calculate_trend_score_notFound_witness :
    calculate_trend_score sampleDB 2 (5 : ℚ) 7 = .error .NotFound ∧
    ∃ s db2, calculate_trend_score sampleDB 1 (5 : ℚ) 7 = .ok (s, db2) :=
  ⟨(calculate_trend_score_notFound sampleDB 2 5 7).1.mpr (by decide),
   (calculate_trend_score_notFound sampleDB 1 5 7).2
     ⟨sampleProduct, by decide, by decide⟩⟩

/-- Claim C5: a successful `calculate_trend_score` appends exactly one
Trend record, carrying the returned score and the current timestamp, at
the end of the append-only trend series, and leaves the products, ads
and watchlists tables unchanged. -/
theorem calculate_trend_score_frame (db : DB) (pid : Nat) (jitter : ℚ)
    (now : Nat) (s : ℚ) (db2 : DB)
    (h : calculate_trend_score db pid jitter now = .ok (s, db2)) :
    db2.trends = db.trends ++ [⟨nextTrendId db, pid, s, now⟩] ∧
    db2.products = db.products ∧ db2.ads = db.ads ∧
    db2.watchlists = db.watchlists := by
  unfold calculate_trend_score at h
  cases hf : findProduct db pid with
  | none => rw [hf] at h; exact absurd h (by simp)
  | some p =>
      rw [hf] at h
      simp only [Except.ok.injEq, Prod.mk.injEq] at h
      obtain ⟨hs, hdb2⟩ := h
      subst hs
      subst hdb2
      exact ⟨rfl, rfl, rfl, rfl⟩

/-- Witness for C5 at a concrete state. -/
theorem calculate_trend_score_frame_witness :
    (DB.mk [sampleProduct] [] [⟨1, 1, 35, 7⟩] []).trends =
      sampleDB.trends ++ [⟨nextTrendId sampleDB, 1, 35, 7⟩] ∧
    (DB.mk [sampleProduct] [] [⟨1, 1, 35, 7⟩] []).products =
      sampleDB.products ∧
    (DB.mk [sampleProduct] [] [⟨1, 1, 35, 7⟩] []).ads = sampleDB.ads ∧
    (DB.mk [sampleProduct] [] [⟨1, 1, 35, 7⟩] []).watchlists =
      sampleDB.watchlists :=
  calculate_trend_score_frame sampleDB 1 5 7 35
    ⟨[sampleProduct], [], [⟨1, 1, 35, 7⟩], []⟩
    (by
      simp only [calculate_trend_score, findProduct, sampleDB, sampleProduct,
        adsFor, distinctPlatforms, trendScoreValue, clampScore, rawScore,
        baseScore, diversityBonus, volumeBonus, nextTrendId, nextId,
        List.find?, List.filter, List.map, List.dedup, List.foldr]
      norm_num)

/-- Claim C6: `check_alerts` returns the empty list of messages for a
user whose watchlist is empty. -/
theorem check_alerts_empty_watchlist (db : DB) (uid : Nat)
    (h : ∀ w ∈ db.watchlists, w.user_id ≠ uid) :
    check_alerts db uid = [] := by
  unfold check_alerts
  have hfil : db.watchlists.filter (fun w => w.user_id == uid) = [] := by
    rw [List.filter_eq_nil_iff]
    intro w hw
    simp only [beq_iff_eq]
    exact h w hw
  rw [hfil]
  rfl

/-- Witness for C6 at a concrete state. -/
theorem check_alerts_empty_watchlist_witness :
    check_alerts sampleDB 1 = [] :=
  check_alerts_empty_watchlist sampleDB 1 (by decide)

/-- Claim C7: the platform-diversity bonus is monotonic: with the jitter
in its range and everything else equal, the score of 3 ads across 3
distinct platforms is strictly higher than the score of 1 ad on 1
platform. -/
theorem diversity_monotonic (jitter : ℚ) (h0 : 0 ≤ jitter)
    (h1 : jitter ≤ jitterMax) :
    trendScoreValue 1 1 jitter < trendScoreValue 3 3 jitter := by
  have h1' : jitter ≤ 20 := by simpa [jitterMax] using h1
  unfold trendScoreValue rawScore clampScore baseScore diversityBonus
    volumeBonus
  push_cast
  rw [min_eq_right (by linarith), min_eq_right (by linarith),
    max_eq_right (by linarith), max_eq_right (by linarith)]
  linarith

/-- Witness for C7 at a concrete jitter. -/
theorem diversity_monotonic_witness :
    trendScoreValue 1 1 (5 : ℚ) < trendScoreValue 3 3 (5 : ℚ) :=
  diversity_monotonic 5 (by norm_num) (by norm_num [jitterMax])

/-- Every element of a list is at most its `foldr max 0`. -/
theorem le_foldr_max (ids : List Nat) :
    ∀ i ∈ ids, i ≤ ids.foldr (fun i m => max i m) 0 := by
  induction ids with
  | nil => intro i hi; cases hi
  | cons a l ih =>
      intro i hi
      rcases List.mem_cons.mp hi with h | h
      · subst h; exact le_max_left _ _
      · exact le_trans (ih i h) (le_max_right _ _)

/-- The id of every stored product is strictly below the next
autoincrement id. -/
theorem id_lt_nextProductId (db : DB) (p : Product)
    (hp : p ∈ db.products) : p.id < nextProductId db :=
  Nat.lt_succ_of_le
    (le_foldr_max _ _ (List.mem_map_of_mem (fun q => q.id) hp))

/-- Claim C8: creating a Product and immediately fetching it by the
returned id yields exactly the created product, which carries the
supplied name and description; creation only appends, leaving every
pre-existing product unchanged. -/
theorem create_get_roundtrip (db : DB) (nm ds : String) (now : Nat) :
    get_product (create_product db nm ds now).2
        (create_product db nm ds now).1.id
      = some (create_product db nm ds now).1 ∧
    (create_product db nm ds now).1.name = nm ∧
    (create_product db nm ds now).1.description = ds ∧
    (create_product db nm ds now).2.products
      = db.products ++ [(create_product db nm ds now).1] := by
  refine ⟨?_, rfl, rfl, rfl⟩
  show findProduct _ _ = _
  unfold findProduct create_product
  simp only
  have hnone : db.products.find?
      (fun q => q.id == nextProductId db) = none := by
    rw [List.find?_eq_none]
    intro q hq
    simp only [beq_iff_eq]
    exact Nat.ne_of_lt (id_lt_nextProductId db q hq)
  rw [List.find?_append, hnone]
  simp

namespace Frontend

/-- Claim C9: in the auth context the invariant
`isAuthenticated = (user ≠ null)` holds of every state, hence after
mount, login, signup and logout; after logout the user is null and
`isAuthenticated` is false; and a stored access token alone, with no
login in the session, never makes `isAuthenticated` true, since the
mount effect never sets the user. -/
theorem auth_isAuthenticated_invariant (stored : Option String)
    (s : AuthState) :
    (∀ st : AuthState, isAuthenticated st = true ↔ st.user ≠ none) ∧
    (logout s).user = none ∧
    isAuthenticated (logout s) = false ∧
    (mountEffect (initAuthState stored)).user = none ∧
    isAuthenticated (mountEffect (initAuthState stored)) = false := by
  refine ⟨?_, rfl, rfl, ?_, ?_⟩
  · intro st
    simp [isAuthenticated, Option.isSome_iff_ne_none]
  · cases stored <;> rfl
  · cases stored <;> rfl

/-- Witness for C9 at a concrete stored token and state. -/
theorem auth_isAuthenticated_invariant_witness :
    (logout (AuthState.mk (some (mkMockUser "alice" "t")) false
      (some "tok") (some "tok"))).user = none ∧
    isAuthenticated (mountEffect (initAuthState (some "tok"))) = false := by
  have h := auth_isAuthenticated_invariant (some "tok")
    (AuthState.mk (some (mkMockUser "alice" "t")) false
      (some "tok") (some "tok"))
  exact ⟨h.2.1, h.2.2.2.2⟩

/-- Claim C10: a successful frontend login sets the context user to a
synthesized object with id 1 and email `username ++ "@example.com"`,
whatever the account data; hence after a successful signup with an email
different from that string, the context user carries a different email
from the one supplied at signup. -/
theorem signup_email_mismatch (s s2 : AuthState)
    (username email password nowIso : String) (signupOk loginOk : Bool)
    (hs : signup s username email password signupOk loginOk nowIso
      = .ok s2)
    (hne : email ≠ username ++ "@example.com") :
    s2.user = some (mkMockUser username nowIso) ∧
    (mkMockUser username nowIso).id = 1 ∧
    (mkMockUser username nowIso).email = username ++ "@example.com" ∧
    ∀ u, s2.user = some u → u.email ≠ email := by
  unfold signup at hs
  cases hsOk : signupOk with
  | false => rw [hsOk] at hs; exact absurd hs (by simp)
  | true =>
      rw [hsOk] at hs
      simp only [if_true] at hs
      unfold login at hs
      cases hlOk : loginOk with
      | false => rw [hlOk] at hs; exact absurd hs (by simp)
      | true =>
          rw [hlOk] at hs
          simp only [if_true, Except.ok.injEq] at hs
          subst hs
          refine ⟨rfl, rfl, rfl, ?_⟩
          intro u hu
          simp only [Option.some.injEq] at hu
          subst hu
          intro hc
          apply hne
          rw [← hc]
          rfl

/-- Witness for C10 at concrete strings. -/
theorem signup_email_mismatch_witness :
    (AuthState.mk (some (mkMockUser "alice" "t")) true none none).user
        = some (mkMockUser "alice" "t") ∧
    (mkMockUser "alice" "t").email ≠ "alice@real.com" := by
  have h := signup_email_mismatch (initAuthState none)
    ⟨some (mkMockUser "alice" "t"), true, none, none⟩
    "alice" "alice@real.com" "pw" "t" true true rfl (by decide)
  exact ⟨h.1, h.2.2.2 (mkMockUser "alice" "t") h.1⟩

end Frontend

end MarketScout
